import Mathlib

/-!
Verification of the gas-estimates orchestration script
(`scripts/gas_calculator.py` of bout3fiddy/curve-gas-estimates).

The embedding below translates the script's data flow into Lean:

* A gas table (`decoded_gas_table` in the script) is a JSON object mapping
  method names to `{avg_gas, count}` objects plus a table-level `"count"`
  key.  We model it as `GasTable`: the method entries as an (insertion
  ordered) association list and the mandatory `"count"` key as a field,
  so the script's `assert "count" in costs[pool_addr]` and the access
  `decoded_gas_table["count"]` are total by construction.  Python integers
  are modelled as `Int`; `avg_gas` is never inspected by the code under
  verification, only stored and compared for equality.

* The persisted cache file `stableswap_pools_gas_estimates.json` is
  modelled by `CacheFile`: it is either absent on disk, present with
  content that `json.load` rejects (`corrupt`), or present with a parsed
  JSON object mapping pool addresses to gas tables (`valid`).  Python
  dicts keep insertion order, so the parsed object is again an
  association list; `json.load` yields unique keys.

* Python dict assignment `costs[pool_addr] = table` is `dictSet`
  (rebinds the key in place when present, appends otherwise), and
  membership `pool_addr in costs` / `costs[pool_addr]` is `lookupTable`.
-/

structure MethodStats where
  avg_gas : Int
  count : Int
deriving DecidableEq, Repr

structure GasTable where
  methods : List (String × MethodStats)
  count : Int
deriving DecidableEq, Repr

inductive CacheFile where
  | absent : CacheFile
  | corrupt (raw : String) : CacheFile
  | valid (costs : List (String × GasTable)) : CacheFile
deriving DecidableEq, Repr

/-- `costs[pool_addr]` / `pool_addr in costs` on a parsed JSON object. -/
def lookupTable : List (String × GasTable) → String → Option GasTable
  | [], _ => none
  | (k, v) :: rest, a => if k = a then some v else lookupTable rest a

/-- Python dict assignment `costs[pool_addr] = t`: rebinds the key in place
when present (insertion order kept), appends the pair otherwise. -/
def dictSet : List (String × GasTable) → String → GasTable → List (String × GasTable)
  | [], a, t => [(a, t)]
  | (k, v) :: rest, a, t =>
      if k = a then (k, t) :: rest else (k, v) :: dictSet rest a t

/-- The `costs` object obtained at the start of
`__append_gas_table_to_output_file`: `costs = {}`, then, if the file
exists, `costs = json.load(f)`, with `json.decoder.JSONDecodeError`
caught and ignored (so a corrupt file also leaves `costs = {}`). -/
def parseCosts : CacheFile → List (String × GasTable)
  | CacheFile.absent => []
  | CacheFile.corrupt _ => []
  | CacheFile.valid costs => costs

/-- The stored entry for an address, as the merge code sees it. -/
def storedEntry (file : CacheFile) (addr : String) : Option GasTable :=
  lookupTable (parseCosts file) addr

/-- `__append_gas_table_to_output_file(output_file_name, pool_addr,
decoded_gas_table)`.  Returns the cache file state after the call and
whether the file was opened for writing.  The code reads the existing
file into `costs` (empty on absence or parse failure), and only when
`pool_addr in costs` and `decoded_gas_table["count"] >
costs[pool_addr]["count"]` does it rebind the key and rewrite the file
with `json.dump(costs, f)`; on every other path it returns without
opening the file for writing. -/
def appendGasTableToOutputFile (file : CacheFile) (pool_addr : String)
    (decoded_gas_table : GasTable) : CacheFile × Bool :=
  let costs := parseCosts file
  match lookupTable costs pool_addr with
  | some stored =>
      if decoded_gas_table.count > stored.count then
        (CacheFile.valid (dictSet costs pool_addr decoded_gas_table), true)
      else
        (file, false)
  | none => (file, false)

/-- The registry addresses hard-coded at the top of the script. -/
def REGISTRIES : List (String × String) :=
  [("MAIN_REGISTRY", "0x90E00ACe148ca3b23Ac1bC8C240C2a7Dd9c2d7f5"),
   ("STABLESWAP_FACTORY", "0xB9fC157394Af804a3578134A6585C0dc9cc990d4"),
   ("CRYPTOSWAP_REGISTRY", "0x8F942C20D02bEfc377D41445793068908E2250D0"),
   ("CRYPTOSWAP_FACTORY", "0xF18056Bbd320E96A48e3Fbf8bC061322531aac99")]

def STABLESWAP_GAS_TABLE_FILE : String := "stableswap_pools_gas_estimates.json"

/-- The accumulation loop of `__get_pools`: for each `pool =
registry.pool_list(i)`, append it to `pools` only if `pool not in
pools`. -/
def getPoolsAux : List String → List String → List String
  | [], pools => pools
  | p :: rest, pools =>
      if p ∈ pools then getPoolsAux rest pools else getPoolsAux rest (pools ++ [p])

/-- `__get_pools(registry)`, with the registry's reported sequence
`[registry.pool_list(0), …, registry.pool_list(pool_count - 1)]` passed
in as a list (the chain query is an external collaborator). -/
def getPools (pool_list : List String) : List String :=
  getPoolsAux pool_list []

/-- The pool-list assembly of `_get_gas_costs_for_stableswap_registry_pools`:
`pools` is extended by `__get_pools` of the main registry and of the
stableswap factory, then deduplicated by `pools = list(set(pools))`
(modelled by `List.dedup`, which returns the distinct elements; Python's
set iteration order is arbitrary, and no claim depends on the order). -/
def assembleRegistryPools (main_registry_pools factory_pools : List String) :
    List String :=
  (getPools main_registry_pools ++ getPools factory_pools).dedup

/-- Exceptions that the external collaborators can raise while a pool's
gas table is being computed (trace fetch / registry / node errors). -/
inductive PipeError where
  | upstream (msg : String) : PipeError
deriving DecidableEq, Repr

/-- The body of the per-pool loop in
`_get_gas_costs_for_stableswap_registry_pools`, for one `pool_addr`:
inside `try`, `decoded_gas_table = _get_gas_table_for_stableswap_pool(…)`
(an external collaborator, passed in as `compute`; `Except.error` models
a raised exception, `Except.ok none` models the falsy empty dict `{}`),
then `if decoded_gas_table:` guards the call to
`__append_gas_table_to_output_file`; `except Exception` prints and moves
on, leaving the file untouched. -/
def registryPoolsStep (compute : String → Except PipeError (Option GasTable))
    (file : CacheFile) (pool_addr : String) : CacheFile :=
  match compute pool_addr with
  | Except.error _ => file
  | Except.ok none => file
  | Except.ok (some t) => (appendGasTableToOutputFile file pool_addr t).1

/-- `_get_gas_costs_for_stableswap_registry_pools`, after the pool list
has been assembled: the `for pool_addr in pools:` loop threading the
cache-file state. -/
def getGasCostsForStableswapRegistryPools
    (compute : String → Except PipeError (Option GasTable))
    (pools : List String) (file : CacheFile) : CacheFile :=
  pools.foldl (registryPoolsStep compute) file

/-- `_get_gas_costs_for_stableswap_pool` (single-contract mode):
`decoded_gas_table = _get_gas_table_for_stableswap_pool_in_block_range(…)`
is not wrapped in any `try`, so a raised exception propagates to the
caller (`Except.error`); otherwise `if decoded_gas_table:` guards the
merge, exactly as in batch mode. -/
def getGasCostsForStableswapPool
    (compute_result : Except PipeError (Option GasTable))
    (pool_address : String) (file : CacheFile) : Except PipeError CacheFile :=
  match compute_result with
  | Except.error e => Except.error e
  | Except.ok none => Except.ok file
  | Except.ok (some t) =>
      Except.ok (appendGasTableToOutputFile file pool_address t).1

/-- `_get_gas_costs_tx` (single-transaction diagnostic mode): builds the
call tree via `_get_calltree`, renders it via `parse_as_tree`, and
computes the per-method breakdown via
`_get_avg_gas_cost_per_method_for_tx` (all external collaborators,
passed in as functions over opaque result types); it never names the
cache file, so the cache state is returned unchanged. -/
def getGasCostsTx {CallTree Rendered Breakdown : Type}
    (get_calltree : String → CallTree)
    (parse_as_tree : CallTree → List String → Rendered)
    (avg_gas_cost_per_method : String → CallTree → Breakdown)
    (contractaddr tx : String) (file : CacheFile) :
    (Rendered × Breakdown) × CacheFile :=
  let call_tree := get_calltree tx
  let rich_call_tree := parse_as_tree call_tree [contractaddr]
  ((rich_call_tree, avg_gas_cost_per_method contractaddr call_tree), file)

-- Sanity checks of the embedding on the spec's own test vectors
-- (c1 = 500, c2 = 499 → no change; c1 = 500, c2 = 501 → replaced;
-- no prior entry → the code writes nothing).
example :
    appendGasTableToOutputFile
      (CacheFile.valid [("A", { methods := [], count := 500 })]) "A"
      { methods := [], count := 499 }
      = (CacheFile.valid [("A", { methods := [], count := 500 })], false) := by
  decide

example :
    appendGasTableToOutputFile
      (CacheFile.valid [("A", { methods := [], count := 500 })]) "A"
      { methods := [], count := 501 }
      = (CacheFile.valid [("A", { methods := [], count := 501 })], true) := by
  decide

example :
    appendGasTableToOutputFile CacheFile.absent "A" { methods := [], count := 1 }
      = (CacheFile.absent, false) := by
  decide

/-! Helper lemmas about the association-list model of Python dicts. -/

theorem lookupTable_dictSet_self (costs : List (String × GasTable)) (a : String)
    (t : GasTable) : lookupTable (dictSet costs a t) a = some t := by
  induction costs with
  | nil => simp [dictSet, lookupTable]
  | cons kv rest ih =>
      obtain ⟨k, v⟩ := kv
      by_cases hk : k = a <;> simp [dictSet, lookupTable, hk, ih]

theorem lookupTable_dictSet_ne (costs : List (String × GasTable)) (a b : String)
    (t : GasTable) (hba : b ≠ a) :
    lookupTable (dictSet costs a t) b = lookupTable costs b := by
  have hab : ¬ a = b := fun h => hba h.symm
  induction costs with
  | nil => simp [dictSet, lookupTable, hab]
  | cons kv rest ih =>
      obtain ⟨k, v⟩ := kv
      by_cases hk : k = a
      · simp [dictSet, lookupTable, hk, hab]
      · simp [dictSet, lookupTable, hk, ih]

/-! Reduction lemmas: the three control-flow outcomes of
`__append_gas_table_to_output_file`. -/

theorem appendGasTable_of_lookup_none (file : CacheFile) (p : String)
    (t : GasTable) (hp : lookupTable (parseCosts file) p = none) :
    appendGasTableToOutputFile file p t = (file, false) := by
  simp only [appendGasTableToOutputFile]
  rw [hp]

theorem appendGasTable_of_gt (file : CacheFile) (p : String) (t stored : GasTable)
    (hp : lookupTable (parseCosts file) p = some stored)
    (hc : t.count > stored.count) :
    appendGasTableToOutputFile file p t =
      (CacheFile.valid (dictSet (parseCosts file) p t), true) := by
  simp only [appendGasTableToOutputFile]
  rw [hp]
  simp [hc]

theorem appendGasTable_of_le (file : CacheFile) (p : String) (t stored : GasTable)
    (hp : lookupTable (parseCosts file) p = some stored)
    (hc : ¬ t.count > stored.count) :
    appendGasTableToOutputFile file p t = (file, false) := by
  simp only [appendGasTableToOutputFile]
  rw [hp]
  simp [hc]

/-- One merge never lowers the count stored for any address: whatever pool
the merge targets, an address that had a stored entry still has one, with
a count at least as large. -/
theorem storedEntry_merge_mono (file : CacheFile) (p addr : String)
    (t old : GasTable) (h : storedEntry file addr = some old) :
    ∃ new, storedEntry (appendGasTableToOutputFile file p t).1 addr = some new ∧
      old.count ≤ new.count := by
  unfold storedEntry at h
  cases hp : lookupTable (parseCosts file) p with
  | none => exact ⟨old, by rw [appendGasTable_of_lookup_none file p t hp]; exact h, le_refl _⟩
  | some stored =>
      by_cases hc : t.count > stored.count
      · rw [appendGasTable_of_gt file p t stored hp hc]
        by_cases hap : addr = p
        · subst hap
          rw [h] at hp
          injection hp with hpe
          subst hpe
          exact ⟨t, by
            show lookupTable (parseCosts (CacheFile.valid (dictSet (parseCosts file) addr t))) addr = some t
            rw [show parseCosts (CacheFile.valid (dictSet (parseCosts file) addr t)) =
                  dictSet (parseCosts file) addr t from rfl]
            exact lookupTable_dictSet_self _ _ _, le_of_lt hc⟩
        · exact ⟨old, by
            show lookupTable (parseCosts (CacheFile.valid (dictSet (parseCosts file) p t))) addr = some old
            rw [show parseCosts (CacheFile.valid (dictSet (parseCosts file) p t)) =
                  dictSet (parseCosts file) p t from rfl]
            rw [lookupTable_dictSet_ne _ _ _ _ hap]
            exact h, le_refl _⟩
      · exact ⟨old, by rw [appendGasTable_of_le file p t stored hp hc]; exact h, le_refl _⟩

/-- One iteration of the batch loop never lowers the stored count of any
address. -/
theorem storedEntry_step_mono (compute : String → Except PipeError (Option GasTable))
    (file : CacheFile) (p addr : String) (old : GasTable)
    (h : storedEntry file addr = some old) :
    ∃ new, storedEntry (registryPoolsStep compute file p) addr = some new ∧
      old.count ≤ new.count := by
  unfold registryPoolsStep
  cases hc : compute p with
  | error e => exact ⟨old, h, le_refl _⟩
  | ok o =>
      cases o with
      | none => exact ⟨old, h, le_refl _⟩
      | some t => exact storedEntry_merge_mono file p addr t old h

/-! Claim theorems. -/

/-- C1 (amended): the merge replaces the stored entry iff an entry for the
pool address already exists in the parsed cache and the new table's
`count` is strictly greater than the stored entry's `count`; when no
entry exists, or when the new count is equal or lower, the file is left
unchanged (in particular, the merge never creates a first entry). -/
theorem merge_replaces_iff_strictly_more_evidence (file : CacheFile)
    (addr : String) (t : GasTable) :
    (∃ old, storedEntry file addr = some old ∧ old.count < t.count ∧
        storedEntry (appendGasTableToOutputFile file addr t).1 addr = some t) ∨
    (storedEntry file addr = none ∧
        (appendGasTableToOutputFile file addr t).1 = file) ∨
    (∃ old, storedEntry file addr = some old ∧ t.count ≤ old.count ∧
        (appendGasTableToOutputFile file addr t).1 = file) := by
  cases h : lookupTable (parseCosts file) addr with
  | none =>
      right; left
      exact ⟨h, by rw [appendGasTable_of_lookup_none file addr t h]⟩
  | some old =>
      by_cases hc : t.count > old.count
      · left
        refine ⟨old, h, hc, ?_⟩
        rw [appendGasTable_of_gt file addr t old h hc]
        show lookupTable (dictSet (parseCosts file) addr t) addr = some t
        exact lookupTable_dictSet_self _ _ _
      · right; right
        exact ⟨old, h, not_lt.mp hc,
          by rw [appendGasTable_of_le file addr t old h hc]⟩

/-- C1 counterexample: with no prior entry for the address (here: the
cache file does not exist yet), the claim as stated says the new table
is stored; the code writes nothing, so after the merge the address still
has no stored entry. -/
theorem merge_no_entry_counterexample :
    storedEntry CacheFile.absent "0xPool" = none ∧
    appendGasTableToOutputFile CacheFile.absent "0xPool"
        { methods := [("add_liquidity", { avg_gas := 100000, count := 1 })],
          count := 1 }
      = (CacheFile.absent, false) ∧
    storedEntry (appendGasTableToOutputFile CacheFile.absent "0xPool"
        { methods := [("add_liquidity", { avg_gas := 100000, count := 1 })],
          count := 1 }).1 "0xPool"
      ≠ some { methods := [("add_liquidity", { avg_gas := 100000, count := 1 })],
               count := 1 } := by
  decide

/-- C2 (amended): a cache file whose content fails to parse as JSON is
treated as containing no prior entries and the merge does not raise; but
since the parsed object is then empty, the pool address has no prior
entry, so the merge writes nothing and the corrupt file is left exactly
as it was (no entry for the address is created). -/
theorem corrupt_cache_treated_as_empty (raw addr : String) (t : GasTable) :
    parseCosts (CacheFile.corrupt raw) = [] ∧
    appendGasTableToOutputFile (CacheFile.corrupt raw) addr t
      = (CacheFile.corrupt raw, false) := by
  refine ⟨rfl, ?_⟩
  exact appendGasTable_of_lookup_none (CacheFile.corrupt raw) addr t rfl

/-- C2 counterexample: merging a table for address `A` into a corrupt
cache file with no prior valid entry does not produce a file containing
only `A`'s new entry — the code performs no write and the file keeps its
corrupt content. -/
theorem corrupt_cache_counterexample :
    (appendGasTableToOutputFile (CacheFile.corrupt "not json") "0xA"
        { methods := [], count := 7 }).1
      = CacheFile.corrupt "not json" ∧
    (appendGasTableToOutputFile (CacheFile.corrupt "not json") "0xA"
        { methods := [], count := 7 }).1
      ≠ CacheFile.valid [("0xA", { methods := [], count := 7 })] := by
  decide

/-- C3: across any sequence of successive merges (the batch loop over any
pool list, with any computation results), the `count` stored for an
address that has an entry never decreases, and the entry never
disappears. -/
theorem stored_count_monotone
    (compute : String → Except PipeError (Option GasTable))
    (pools : List String) (file : CacheFile) (addr : String) (old : GasTable)
    (h : storedEntry file addr = some old) :
    ∃ new,
      storedEntry (getGasCostsForStableswapRegistryPools compute pools file) addr
        = some new ∧
      old.count ≤ new.count := by
  induction pools generalizing file old with
  | nil => exact ⟨old, h, le_refl _⟩
  | cons p rest ih =>
      obtain ⟨mid, hmid, hle⟩ := storedEntry_step_mono compute file p addr old h
      obtain ⟨new, hnew, hle2⟩ := ih (registryPoolsStep compute file p) mid hmid
      exact ⟨new, hnew, le_trans hle hle2⟩

/-- C3 witness: a concrete two-merge run in which the stored count for
address `A` rises from 1 to 2 and never decreases. -/
theorem stored_count_monotone_witness :
    ∃ new,
      storedEntry (getGasCostsForStableswapRegistryPools
          (fun _ => Except.ok (some { methods := [], count := 2 })) ["A", "A"]
          (CacheFile.valid [("A", { methods := [], count := 1 })])) "A"
        = some new ∧
      ({ methods := [], count := 1 } : GasTable).count ≤ new.count :=
  stored_count_monotone (fun _ => Except.ok (some { methods := [], count := 2 }))
    ["A", "A"] (CacheFile.valid [("A", { methods := [], count := 1 })]) "A"
    { methods := [], count := 1 } (by decide)

/-- C4: merging the same gas table for the same address twice in a row
yields the same cache state as merging it once — the second merge finds
equal counts (or still no entry) and writes nothing. -/
theorem remerge_idempotent (file : CacheFile) (addr : String) (t : GasTable) :
    (appendGasTableToOutputFile
        (appendGasTableToOutputFile file addr t).1 addr t).1
      = (appendGasTableToOutputFile file addr t).1 := by
  cases h : lookupTable (parseCosts file) addr with
  | none => rw [appendGasTable_of_lookup_none file addr t h,
      appendGasTable_of_lookup_none file addr t h]
  | some old =>
      by_cases hc : t.count > old.count
      · rw [appendGasTable_of_gt file addr t old h hc]
        have hl : lookupTable
            (parseCosts (CacheFile.valid (dictSet (parseCosts file) addr t))) addr
            = some t := lookupTable_dictSet_self _ _ _
        rw [appendGasTable_of_le _ addr t t hl (lt_irrefl _)]
      · rw [appendGasTable_of_le file addr t old h hc,
          appendGasTable_of_le file addr t old h hc]

/-- C5: when the pipeline yields an empty (falsy) gas table, both callers
skip the merge entirely — the batch loop body returns the cache unchanged
and the single-contract command returns the cache unchanged — so no
existing entry is overwritten and no `count = 0` entry is created. -/
theorem empty_table_skips_merge
    (compute : String → Except PipeError (Option GasTable))
    (file : CacheFile) (pool_addr : String)
    (h : compute pool_addr = Except.ok none) :
    registryPoolsStep compute file pool_addr = file ∧
    getGasCostsForStableswapPool (Except.ok none) pool_addr file
      = Except.ok file := by
  refine ⟨?_, rfl⟩
  unfold registryPoolsStep
  rw [h]

/-- C5 witness: an empty-table run against a cache holding a non-empty
entry leaves that entry (and the whole cache) unchanged. -/
theorem empty_table_skips_merge_witness :
    registryPoolsStep (fun _ => Except.ok none)
        (CacheFile.valid [("A", { methods := [], count := 3 })]) "A"
      = CacheFile.valid [("A", { methods := [], count := 3 })] ∧
    getGasCostsForStableswapPool (Except.ok none) "A"
        (CacheFile.valid [("A", { methods := [], count := 3 })])
      = Except.ok (CacheFile.valid [("A", { methods := [], count := 3 })]) :=
  empty_table_skips_merge (fun _ => Except.ok none)
    (CacheFile.valid [("A", { methods := [], count := 3 })]) "A" rfl

/-- C6: in the batch scan, an exception while handling one pool is caught
per-pool — the loop body leaves the cache unchanged and the scan of the
remaining pools proceeds exactly as if the failing pool were absent —
while in single-contract mode the same exception propagates to the
caller. -/
theorem batch_catches_per_pool_errors
    (compute : String → Except PipeError (Option GasTable)) (file : CacheFile)
    (p : String) (ps : List String) (e : PipeError) (addr : String)
    (h : compute p = Except.error e) :
    registryPoolsStep compute file p = file ∧
    getGasCostsForStableswapRegistryPools compute (p :: ps) file
      = getGasCostsForStableswapRegistryPools compute ps file ∧
    getGasCostsForStableswapPool (Except.error e) addr file
      = Except.error e := by
  have hstep : registryPoolsStep compute file p = file := by
    unfold registryPoolsStep
    rw [h]
  refine ⟨hstep, ?_, rfl⟩
  unfold getGasCostsForStableswapRegistryPools
  rw [List.foldl_cons, hstep]

/-- C6 witness: a concrete scan in which the only pool's computation
raises; the cache survives untouched and single-contract mode fails. -/
theorem batch_catches_per_pool_errors_witness :
    registryPoolsStep (fun _ => Except.error (PipeError.upstream "node down"))
        CacheFile.absent "A"
      = CacheFile.absent ∧
    getGasCostsForStableswapRegistryPools
        (fun _ => Except.error (PipeError.upstream "node down")) ["A"]
        CacheFile.absent
      = getGasCostsForStableswapRegistryPools
          (fun _ => Except.error (PipeError.upstream "node down")) []
          CacheFile.absent ∧
    getGasCostsForStableswapPool
        (Except.error (PipeError.upstream "node down")) "B" CacheFile.absent
      = Except.error (PipeError.upstream "node down") :=
  batch_catches_per_pool_errors
    (fun _ => Except.error (PipeError.upstream "node down")) CacheFile.absent
    "A" [] (PipeError.upstream "node down") "B" rfl

/-- C7: when the merge does write, the new file content is the previously
parsed content with exactly the one pool address rebound, and every
other address's stored entry is unchanged. -/
theorem merge_frames_other_addresses (file : CacheFile) (addr : String)
    (t : GasTable) (h : (appendGasTableToOutputFile file addr t).2 = true) :
    (appendGasTableToOutputFile file addr t).1
      = CacheFile.valid (dictSet (parseCosts file) addr t) ∧
    ∀ b, b ≠ addr →
      storedEntry (appendGasTableToOutputFile file addr t).1 b
        = storedEntry file b := by
  cases hl : lookupTable (parseCosts file) addr with
  | none =>
      rw [appendGasTable_of_lookup_none file addr t hl] at h
      simp at h
  | some old =>
      by_cases hc : t.count > old.count
      · have he := appendGasTable_of_gt file addr t old hl hc
        rw [he]
        refine ⟨rfl, fun b hb => ?_⟩
        show lookupTable (dictSet (parseCosts file) addr t) b = storedEntry file b
        rw [lookupTable_dictSet_ne _ _ _ _ hb]
        rfl
      · rw [appendGasTable_of_le file addr t old hl hc] at h
        simp at h

/-- C7 witness: rebinding `A` in a two-entry cache leaves `B`'s entry as
it was. -/
theorem merge_frames_other_addresses_witness :
    (appendGasTableToOutputFile
        (CacheFile.valid [("A", { methods := [], count := 1 }),
          ("B", { methods := [], count := 5 })]) "A"
        { methods := [], count := 2 }).1
      = CacheFile.valid (dictSet
          (parseCosts (CacheFile.valid [("A", { methods := [], count := 1 }),
            ("B", { methods := [], count := 5 })]))
          "A" { methods := [], count := 2 }) ∧
    storedEntry (appendGasTableToOutputFile
        (CacheFile.valid [("A", { methods := [], count := 1 }),
          ("B", { methods := [], count := 5 })]) "A"
        { methods := [], count := 2 }).1 "B"
      = storedEntry
          (CacheFile.valid [("A", { methods := [], count := 1 }),
            ("B", { methods := [], count := 5 })]) "B" :=
  ⟨(merge_frames_other_addresses
      (CacheFile.valid [("A", { methods := [], count := 1 }),
        ("B", { methods := [], count := 5 })]) "A"
      { methods := [], count := 2 } (by decide)).1,
   (merge_frames_other_addresses
      (CacheFile.valid [("A", { methods := [], count := 1 }),
        ("B", { methods := [], count := 5 })]) "A"
      { methods := [], count := 2 } (by decide)).2 "B" (by decide)⟩

/-- C8: the single-transaction diagnostic mode computes the rendered call
tree and the per-method gas breakdown and leaves the persisted cache
state exactly as it was. -/
theorem tx_mode_leaves_cache_untouched {CallTree Rendered Breakdown : Type}
    (get_calltree : String → CallTree)
    (parse_as_tree : CallTree → List String → Rendered)
    (avg_gas_cost_per_method : String → CallTree → Breakdown)
    (contractaddr tx : String) (file : CacheFile) :
    (getGasCostsTx get_calltree parse_as_tree avg_gas_cost_per_method
        contractaddr tx file).2 = file := rfl

/-- C9: the merge opens the cache file for writing exactly when the pool
address already has a parsed entry whose `count` is strictly below the
new table's; on every other path — including an absent address — it does
not write and the file is unchanged. -/
theorem file_written_iff_entry_and_higher_count (file : CacheFile)
    (addr : String) (t : GasTable) :
    ((appendGasTableToOutputFile file addr t).2 = true ∧
      ∃ old, storedEntry file addr = some old ∧ old.count < t.count) ∨
    ((appendGasTableToOutputFile file addr t).2 = false ∧
      (appendGasTableToOutputFile file addr t).1 = file ∧
      ¬ ∃ old, storedEntry file addr = some old ∧ old.count < t.count) := by
  cases hl : lookupTable (parseCosts file) addr with
  | none =>
      right
      rw [appendGasTable_of_lookup_none file addr t hl]
      refine ⟨rfl, rfl, ?_⟩
      rintro ⟨old, ho, _⟩
      unfold storedEntry at ho
      rw [hl] at ho
      exact Option.noConfusion ho
  | some old =>
      by_cases hc : t.count > old.count
      · left
        rw [appendGasTable_of_gt file addr t old hl hc]
        exact ⟨rfl, ⟨old, hl, hc⟩⟩
      · right
        rw [appendGasTable_of_le file addr t old hl hc]
        refine ⟨rfl, rfl, ?_⟩
        rintro ⟨old2, ho, hlt⟩
        unfold storedEntry at ho
        rw [hl] at ho
        have heq : old = old2 := Option.some.inj ho
        exact hc (heq ▸ hlt)

theorem getPoolsAux_nodup (l : List String) :
    ∀ acc : List String, acc.Nodup → (getPoolsAux l acc).Nodup := by
  induction l with
  | nil => exact fun acc h => h
  | cons p rest ih =>
      intro acc h
      by_cases hp : p ∈ acc
      · simp only [getPoolsAux, if_pos hp]
        exact ih acc h
      · simp only [getPoolsAux, if_neg hp]
        refine ih (acc ++ [p]) ?_
        rw [← List.concat_eq_append]
        exact List.Nodup.concat hp h

/-- C10: `__get_pools` never records the same address twice, and the pool
list assembled from both registries is deduplicated, so each address
occurs at most once and undergoes at most one computation-and-merge per
run. -/
theorem registry_pool_list_nodup
    (pool_list main_registry_pools factory_pools : List String) :
    (getPools pool_list).Nodup ∧
    (assembleRegistryPools main_registry_pools factory_pools).Nodup ∧
    ∀ a, (assembleRegistryPools main_registry_pools factory_pools).count a ≤ 1 := by
  refine ⟨getPoolsAux_nodup pool_list [] List.nodup_nil, List.nodup_dedup _,
    fun a => ?_⟩
  exact List.nodup_iff_count_le_one.mp (List.nodup_dedup _) a
